import Mathlib

/-!
Verification development for the transcription-to-timeline stage of the
musicvid repository (pipeline/transcribe.py).

The Python source is shallowly embedded: floats are modelled as exact
rationals, the filesystem as a function from paths to optional file
contents, and the side effects of the single entry point as an explicit
event trace.  External collaborators (the faster-whisper capability and
the CPython json/str library routines the script calls) are modelled by
executable Lean functions that mirror the documented CPython behaviour
on the values this program feeds them.
-/

namespace Musicvid

/-- Model of CPython whitespace (Py_UNICODE_ISSPACE), the character class
removed by str.strip() with no arguments. -/
def isPySpace (c : Char) : Bool :=
  let n := c.toNat
  decide ((9 ≤ n ∧ n ≤ 13) ∨ (28 ≤ n ∧ n ≤ 31) ∨ n = 32 ∨ n = 133 ∨ n = 160 ∨
    n = 5760 ∨ (8192 ≤ n ∧ n ≤ 8202) ∨ n = 8232 ∨ n = 8233 ∨ n = 8239 ∨
    n = 8287 ∨ n = 12288)

/-- Drop leading Python whitespace from a character list. -/
def lstripL (l : List Char) : List Char := l.dropWhile isPySpace

/-- Drop trailing Python whitespace from a character list. -/
def rstripL (l : List Char) : List Char :=
  (l.reverse.dropWhile isPySpace).reverse

/-- Model of CPython str.strip() with no arguments. -/
def pyStrip (s : String) : String := String.mk (rstripL (lstripL s.data))

/-- Round-half-to-even on an exact rational, the tie-breaking rule CPython's
round() applies to the decimal value being rounded. -/
def roundHalfEven (x : ℚ) : ℤ :=
  if x - ⌊x⌋ < 1 / 2 then ⌊x⌋
  else if 1 / 2 < x - ⌊x⌋ then ⌊x⌋ + 1
  else if ⌊x⌋ % 2 = 0 then ⌊x⌋ else ⌊x⌋ + 1

/-- Model of CPython round(x, 3) on the exact-rational abstraction of the
float x: round to the nearest multiple of 1/1000, ties to even. -/
def pyRound3 (q : ℚ) : ℚ := (roundHalfEven (q * 1000) : ℚ) / 1000

/-- One word object of the transcription capability's output
(faster-whisper Word: attributes word, start, end). -/
structure Word where
  word : String
  start : ℚ
  «end» : ℚ
deriving DecidableEq

/-- One segment of the transcription capability's output.  words is None
(no word-level sub-timings) or a list of Word; start and end are the
segment-level time range. -/
structure Segment where
  words : Option (List Word)
  start : ℚ
  «end» : ℚ
deriving DecidableEq

/-- Auxiliary transcription metadata (faster-whisper TranscriptionInfo),
used only in the final status line. -/
structure Info where
  language : String
  language_probability : ℚ
deriving DecidableEq

/-- One entry of the persisted timeline: the dict with keys
word, start, end built at lines 54-58 of pipeline/transcribe.py. -/
structure WordSpan where
  word : String
  start : ℚ
  «end» : ℚ
deriving DecidableEq

/-- Python truthiness of segment.words as tested by the line
`if segment.words:` — None and the empty list are falsy. -/
def pyTruthy : Option (List Word) → Bool
  | none => false
  | some l => !l.isEmpty

/-- The word list carried by a segment (empty when words is None). -/
def wordsOf (s : Segment) : List Word := s.words.getD []

/-- The normalization applied to one capability word at lines 55-57:
strip the text, round both timestamps to 3 decimal places. -/
def normWordSpan (w : Word) : WordSpan :=
  ⟨pyStrip w.word, pyRound3 w.start, pyRound3 w.«end»⟩

/-- The extraction loop at lines 50-58 of pipeline/transcribe.py: iterate
segments in order; a segment with truthy words appends its normalized
words in order, any other segment appends nothing. -/
def extractTimeline : List Segment → List WordSpan
  | [] => []
  | s :: rest =>
    (if pyTruthy s.words then (wordsOf s).map normWordSpan else []) ++
      extractTimeline rest

/-- Decimal digit character for d < 10. -/
def digitChar (d : ℕ) : Char := Char.ofNat (48 + d % 10)

/-- Decimal digits of n, most significant first, with explicit recursion
fuel so that the definition computes by kernel reduction. -/
def natDigitsF : ℕ → ℕ → List Char
  | 0, _ => []
  | fuel + 1, n =>
    if n < 10 then [digitChar n]
    else natDigitsF fuel (n / 10) ++ [digitChar (n % 10)]

/-- Decimal rendering of a natural number (CPython int rendering). -/
def natDigits (n : ℕ) : List Char := natDigitsF (n + 1) n

/-- The three decimal digits of m < 1000, most significant first. -/
def pad3 (m : ℕ) : List Char :=
  [digitChar (m / 100), digitChar (m / 10 % 10), digitChar (m % 10)]

/-- Remove trailing zero characters. -/
def stripTrailZeros (l : List Char) : List Char :=
  (l.reverse.dropWhile (fun c => c = '0')).reverse

/-- Fractional digits CPython repr prints for the value m/1000 (m < 1000):
three digits with trailing zeros removed, but at least one digit. -/
def frac3 (m : ℕ) : List Char :=
  if m = 0 then ['0'] else stripTrailZeros (pad3 m)

/-- CPython repr of the float closest to k/1000 for a natural k: the
shortest decimal that denotes it, always keeping one fractional digit. -/
def renderMillis (k : ℕ) : List Char :=
  natDigits (k / 1000) ++ ('.' :: frac3 (k % 1000))

/-- Number rendering used by the json serializer on the rounded,
nonnegative timestamps this program stores: q must be a nonnegative
multiple of 1/1000. -/
def renderNum (q : ℚ) : List Char := renderMillis (q * 1000).num.toNat

/-- Lowercase hexadecimal digit character for d < 16. -/
def hexDig (d : ℕ) : Char :=
  Char.ofNat (if d < 10 then 48 + d else 87 + d)

/-- Four lowercase hex digits of n < 65536, most significant first. -/
def hex4 (n : ℕ) : List Char :=
  [hexDig (n / 4096 % 16), hexDig (n / 256 % 16), hexDig (n / 16 % 16),
    hexDig (n % 16)]

/-- Model of the per-character escaping of CPython json.dump with the
default ensure_ascii=True: short escapes for the two-character sequences,
u-escapes for other control characters and all non-ASCII, surrogate
pairs for characters above the basic multilingual plane. -/
def escChar (c : Char) : List Char :=
  if c = '"' then ['\\', '"']
  else if c = '\\' then ['\\', '\\']
  else if c = Char.ofNat 10 then ['\\', 'n']
  else if c = Char.ofNat 13 then ['\\', 'r']
  else if c = Char.ofNat 9 then ['\\', 't']
  else if c = Char.ofNat 8 then ['\\', 'b']
  else if c = Char.ofNat 12 then ['\\', 'f']
  else if c.toNat < 32 then ('\\' :: ('u' :: hex4 c.toNat))
  else if c.toNat < 127 then [c]
  else if c.toNat < 65536 then ('\\' :: ('u' :: hex4 c.toNat))
  else
    ('\\' :: ('u' :: hex4 (55296 + (c.toNat - 65536) / 1024))) ++
      ('\\' :: ('u' :: hex4 (56320 + (c.toNat - 65536) % 1024)))

/-- json string-body escaping of a character list. -/
def escapeChars (l : List Char) : List Char := (l.map escChar).flatten

/-- JSON values, the data CPython's json module serializes. -/
inductive Json where
  | str (s : String)
  | num (q : ℚ)
  | arr (xs : List Json)
  | obj (fields : List (String × Json))

/-- The JSON value of one timeline entry: the dict literal of lines 54-58,
whose keys appear in insertion order word, start, end. -/
def jsonOfEntry (e : WordSpan) : Json :=
  Json.obj [("word", Json.str e.word), ("start", Json.num e.start),
    ("end", Json.num e.«end»)]

/-- The JSON value json.dump receives at line 64: the timeline list. -/
def jsonOfTimeline (t : List WordSpan) : Json :=
  Json.arr (t.map jsonOfEntry)

/-- Interleave a separator between list chunks (no trailing separator). -/
def joinSep (sep : List Char) : List (List Char) → List Char
  | [] => []
  | [x] => x
  | x :: y :: t => x ++ sep ++ joinSep sep (y :: t)

/-- Model of CPython json.dump(v, f, indent=2) at indentation level ind:
items of nonempty arrays and objects go one per line, indented two
spaces deeper, with item separator "," and key separator ": ". -/
def dumpVal (j : Json) (ind : ℕ) : List Char :=
  match j with
  | Json.str s => ('"' :: escapeChars s.data) ++ ['"']
  | Json.num q => renderNum q
  | Json.arr [] => ['[', ']']
  | Json.arr (x :: xs) =>
    (('[' :: [Char.ofNat 10]) ++
      joinSep (',' :: [Char.ofNat 10])
        ((x :: xs).attach.map fun y =>
          List.replicate (ind + 2) ' ' ++ dumpVal y.1 (ind + 2))) ++
      ((Char.ofNat 10 :: List.replicate ind ' ') ++ [']'])
  | Json.obj [] => ['\x7b', '\x7d']
  | Json.obj (f :: fs) =>
    (('\x7b' :: [Char.ofNat 10]) ++
      joinSep (',' :: [Char.ofNat 10])
        ((f :: fs).attach.map fun kv =>
          (List.replicate (ind + 2) ' ' ++ ('"' :: escapeChars kv.1.1.data)) ++
            ('"' :: (':' :: (' ' :: dumpVal kv.1.2 (ind + 2)))))) ++
      ((Char.ofNat 10 :: List.replicate ind ' ') ++ ['\x7d'])
termination_by (sizeOf j, 0)
decreasing_by
  · have hy := List.sizeOf_lt_of_mem y.2
    simp only [Json.arr.sizeOf_spec]
    omega
  · have hkv := List.sizeOf_lt_of_mem kv.2
    have : sizeOf kv.1.2 < sizeOf kv.1 := by
      obtain ⟨a, b⟩ := kv.1
      simp only [Prod.mk.sizeOf_spec]
      omega
    simp only [Json.obj.sizeOf_spec]
    omega

/-- The serialized form of one timeline entry inside the written array:
two-space item indentation, the object's fields at four spaces. -/
def entryChars (e : WordSpan) : List Char :=
  ("  \x7b\n    \"word\": \"").data ++ escapeChars e.word.data ++
    (("\",\n    \"start\": ").data ++ renderNum e.start) ++
    ((",\n    \"end\": ").data ++ renderNum e.«end») ++
    ("\n  \x7d").data

/-- The full character content json.dump(timeline, f, indent=2) writes. -/
def dumpTimelineChars (t : List WordSpan) : List Char :=
  match t with
  | [] => ['[', ']']
  | _ :: _ =>
    ('[' :: [Char.ofNat 10]) ++
      joinSep (',' :: [Char.ofNat 10]) (t.map entryChars) ++
      ((Char.ofNat 10) :: [']'])

/-- Value of a hexadecimal digit character, as json.loads reads it. -/
def hexVal (c : Char) : Option ℕ :=
  if 48 ≤ c.toNat ∧ c.toNat ≤ 57 then some (c.toNat - 48)
  else if 97 ≤ c.toNat ∧ c.toNat ≤ 102 then some (c.toNat - 87)
  else if 65 ≤ c.toNat ∧ c.toNat ≤ 70 then some (c.toNat - 55)
  else none

/-- One step of json string-body scanning: either the closing quote or
one decoded character. -/
inductive Tok where
  | close
  | chr (c : Char)
deriving DecidableEq

/-- Decode one item of a json string body, as json.loads does in strict
mode: the closing quote ends the string, backslash escapes are decoded
(u-escapes including surrogate pairs), raw control characters are
rejected, anything else stands for itself. -/
def decodeOne : List Char → Option (Tok × List Char)
  | [] => none
  | c :: rest =>
    if c = '"' then some (Tok.close, rest)
    else if c = '\\' then
      match rest with
      | [] => none
      | e :: r2 =>
        if e = '"' then some (Tok.chr '"', r2)
        else if e = '\\' then some (Tok.chr '\\', r2)
        else if e = '/' then some (Tok.chr '/', r2)
        else if e = 'b' then some (Tok.chr (Char.ofNat 8), r2)
        else if e = 'f' then some (Tok.chr (Char.ofNat 12), r2)
        else if e = 'n' then some (Tok.chr (Char.ofNat 10), r2)
        else if e = 'r' then some (Tok.chr (Char.ofNat 13), r2)
        else if e = 't' then some (Tok.chr (Char.ofNat 9), r2)
        else if e = 'u' then
          match r2 with
          | a :: b :: c2 :: d :: r3 =>
            match hexVal a, hexVal b, hexVal c2, hexVal d with
            | some h1, some h2, some h3, some h4 =>
              let n := h1 * 4096 + h2 * 256 + h3 * 16 + h4
              if 55296 ≤ n ∧ n < 56320 then
                match r3 with
                | s1 :: s2 :: a2 :: b2 :: c3 :: d2 :: r4 =>
                  if s1 = '\\' ∧ s2 = 'u' then
                    match hexVal a2, hexVal b2, hexVal c3, hexVal d2 with
                    | some g1, some g2, some g3, some g4 =>
                      let m := g1 * 4096 + g2 * 256 + g3 * 16 + g4
                      if 56320 ≤ m ∧ m < 57344 then
                        some (Tok.chr
                          (Char.ofNat (65536 + (n - 55296) * 1024 + (m - 56320))),
                          r4)
                      else none
                    | _, _, _, _ => none
                  else none
                | _ => none
              else if 56320 ≤ n ∧ n < 57344 then none
              else some (Tok.chr (Char.ofNat n), r3)
            | _, _, _, _ => none
          | _ => none
        else none
    else if c.toNat < 32 then none
    else some (Tok.chr c, rest)

/-- Scan a json string body up to its closing quote, with recursion fuel;
returns the decoded characters and the input after the quote. -/
def unescapeF : ℕ → List Char → Option (List Char × List Char)
  | 0, _ => none
  | fuel + 1, l =>
    match decodeOne l with
    | none => none
    | some (Tok.close, r) => some ([], r)
    | some (Tok.chr c, r) =>
      (unescapeF fuel r).map fun p => (c :: p.1, p.2)

/-- Scan a json string body (fuel instantiated from the input length). -/
def unescape (l : List Char) : Option (List Char × List Char) :=
  unescapeF (l.length + 1) l

/-- Is c a decimal digit character. -/
def isDigitChar (c : Char) : Bool := decide (48 ≤ c.toNat ∧ c.toNat ≤ 57)

/-- Value of a most-significant-first digit string. -/
def digitsVal : List Char → ℕ
  | [] => 0
  | c :: r => (c.toNat - 48) * 10 ^ r.length + digitsVal r

/-- Read a maximal run of decimal digits: value, digit count, rest. -/
def readDigits : List Char → ℕ × ℕ × List Char
  | [] => (0, 0, [])
  | c :: rest =>
    if isDigitChar c then
      let t := readDigits rest
      ((c.toNat - 48) * 10 ^ t.2.1 + t.1, t.2.1 + 1, t.2.2)
    else (0, 0, c :: rest)

/-- Read a json number of the shape digits '.' digits, as json.loads
reads the numbers this program writes, into an exact rational. -/
def readNum (l : List Char) : Option (ℚ × List Char) :=
  match l with
  | [] => none
  | c :: _ =>
    if isDigitChar c then
      let t := readDigits l
      match t.2.2 with
      | '.' :: r2 =>
        match r2 with
        | d :: _ =>
          if isDigitChar d then
            let u := readDigits r2
            some ((t.1 : ℚ) + (u.1 : ℚ) / 10 ^ u.2.1, u.2.2)
          else none
        | [] => none
      | _ => none
    else none

/-- Consume an expected literal prefix. -/
def expectPre : List Char → List Char → Option (List Char)
  | [], l => some l
  | _ :: _, [] => none
  | c :: p, d :: l => if c = d then expectPre p l else none

/-- Parse one serialized timeline entry and return the input after its
closing brace. -/
def parseEntry (l : List Char) : Option (WordSpan × List Char) :=
  (expectPre (("  \x7b\n    \"word\": \"").data) l).bind fun l1 =>
  (unescape l1).bind fun w2 =>
  (expectPre ((",\n    \"start\": ").data) w2.2).bind fun l3 =>
  (readNum l3).bind fun s4 =>
  (expectPre ((",\n    \"end\": ").data) s4.2).bind fun l5 =>
  (readNum l5).bind fun e6 =>
  (expectPre (("\n  \x7d").data) e6.2).map fun l7 =>
  (⟨String.mk w2.1, s4.1, e6.1⟩, l7)

/-- Parse the comma-separated entry list followed by the closing
bracket, with recursion fuel. -/
def loopEntries : ℕ → List Char → Option (List WordSpan)
  | 0, _ => none
  | fuel + 1, l =>
    (parseEntry l).bind fun pr =>
      match pr.2 with
      | ',' :: rest =>
        match rest with
        | c :: r2 =>
          if c = Char.ofNat 10 then
            (loopEntries fuel r2).map fun ts => pr.1 :: ts
          else none
        | [] => none
      | c :: rest =>
        if c = Char.ofNat 10 ∧ rest = [']'] then some [pr.1] else none
      | [] => none

/-- Model of json.loads restricted to the documents this program writes:
the empty array, or bracketed newline-separated entries. -/
def parseTimeline (l : List Char) : Option (List WordSpan) :=
  match l with
  | '[' :: rest =>
    match rest with
    | [']'] => some []
    | c :: r =>
      if c = Char.ofNat 10 then loopEntries r.length r else none
    | [] => none
  | _ => none

/-- The well-formedness the Writer's inputs satisfy: both timestamps of
an entry are nonnegative integer multiples of 1/1000 (which the
extractor's rounding guarantees for nonnegative capability times). -/
def WFentry (e : WordSpan) : Prop :=
  (∃ k : ℕ, e.start = (k : ℚ) / 1000) ∧ (∃ k : ℕ, e.«end» = (k : ℚ) / 1000)

/-- Zero-padded digits, d wide, for the fixed-point float formatting of
the progress and status lines. -/
def padDigits (d m : ℕ) : List Char :=
  List.replicate (d - (natDigits m).length) '0' ++ natDigits m

/-- Model of CPython format(x, '.df') for nonnegative x: round half to
even at d decimal places and print exactly d fractional digits. -/
def fmtFixed (d : ℕ) (q : ℚ) : List Char :=
  let k := (roundHalfEven (q * 10 ^ d)).toNat
  natDigits (k / 10 ^ d) ++ ('.' :: padDigits d (k % 10 ^ d))

/-- The environment one invocation of pipeline/transcribe.py runs in:
the command-line arguments after the program name, the filesystem
existence predicate, whether the faster_whisper import succeeds, and
the segments and metadata model.transcribe returns for a given path. -/
structure Env where
  argv : List String
  pathExists : String → Bool
  whisperInstalled : Bool
  transcribeResult : String → List Segment × Info

/-- Observable side effects of the script, in program order. -/
inductive Event where
  | checkExists (p : String)
  | print (s : String)
  | importFasterWhisper
  | loadModel
  | transcribeCall (p : String)
  | openWrite (p : String)
  | writeFile (p : String) (content : List Char)
deriving DecidableEq

/-- Process outcome: sys.exit(code) or falling off the end of main. -/
inductive Outcome where
  | exited (code : ℕ)
  | completed
deriving DecidableEq

/-- project_dir at line 19: the directory named project next to the
pipeline directory holding the script.  repoDir stands for
os.path.dirname(os.path.dirname(__file__)). -/
def projectDir (repoDir : String) : String := repoDir ++ "/project"

/-- The first candidate audio path (line 20): the explicit argument if
present, else the default audio.mp3 in the project directory. -/
def cand1 (repoDir : String) (env : Env) : String :=
  match env.argv with
  | a :: _ => a
  | [] => projectDir repoDir ++ "/audio.mp3"

/-- The fixed fallback path assigned at line 24 when the first candidate
does not exist: audio.wav in the project directory. -/
def wavFallback (repoDir : String) : String :=
  projectDir repoDir ++ "/audio.wav"

/-- The value of audio_path after lines 20-24. -/
def audioPath1 (repoDir : String) (env : Env) : String :=
  if env.pathExists (cand1 repoDir env) then cand1 repoDir env
  else wavFallback repoDir

/-- The fixed output path at line 62. -/
def timelinePath (repoDir : String) : String :=
  projectDir repoDir ++ "/timeline.json"

/-- Shallow embedding of main() in pipeline/transcribe.py: the event
trace it produces and how it terminates, as a function of the
environment. -/
def main (repoDir : String) (env : Env) : List Event × Outcome :=
  let ap := audioPath1 repoDir env
  let preEvents := [Event.checkExists (cand1 repoDir env), Event.checkExists ap]
  if env.pathExists ap then
    let e2 := preEvents ++
      [Event.print ("Transcribing: " ++ ap),
        Event.print ("Loading Whisper model (this may take a moment on first run)..."),
        Event.importFasterWhisper]
    if env.whisperInstalled then
      let res := env.transcribeResult ap
      let tl := extractTimeline res.1
      (e2 ++
        ([Event.loadModel, Event.print ("Transcribing audio..."),
          Event.transcribeCall ap] ++
          (res.1.map fun s =>
            Event.print ("  Processed segment: " ++ String.mk (fmtFixed 1 s.start) ++
              "s - " ++ String.mk (fmtFixed 1 s.«end») ++ "s")) ++
          [Event.openWrite (timelinePath repoDir),
            Event.writeFile (timelinePath repoDir) (dumpTimelineChars tl),
            Event.print ("Wrote " ++ String.mk (natDigits tl.length) ++ " words to " ++
              timelinePath repoDir),
            Event.print ("Detected language: " ++ res.2.language ++ " (probability: " ++
              String.mk (fmtFixed 2 res.2.language_probability) ++ ")"),
            Event.print ("Transcription complete!")]),
        Outcome.completed)
    else
      (e2 ++
        [Event.print ("faster-whisper not installed. Install with:"),
          Event.print ("  pip install faster-whisper")],
        Outcome.exited 1)
  else
    (preEvents ++
      [Event.print ("Error: no audio file found at " ++ ap),
        Event.print ("Upload audio via the web UI first.")],
      Outcome.exited 1)

/-- Filesystem model: path to optional file content. -/
def FS : Type := String → Option (List Char)

/-- Effect of one event on the filesystem: open(p, 'w') truncates,
writing replaces the content; everything else leaves files alone. -/
def applyEvent (fs : FS) (e : Event) : FS :=
  match e with
  | Event.openWrite p => fun q => if q = p then some [] else fs q
  | Event.writeFile p c => fun q => if q = p then some c else fs q
  | _ => fs

/-- Effect of an event trace on the filesystem. -/
def applyEvents (fs : FS) (evs : List Event) : FS :=
  evs.foldl applyEvent fs

/-- The existence checks a run performs, in order. -/
def checkedPaths (evs : List Event) : List String :=
  evs.filterMap fun e =>
    match e with
    | Event.checkExists p => some p
    | _ => none

/-- Modelled from the spec: the fallback candidate the specification
describes, the sibling of the candidate path with the same base name
and a .wav extension in the same directory (os.path.splitext semantics
on the final dot). -/
def siblingWavSpec (p : String) : String :=
  let r := p.data.reverse
  if r.contains '.' then
    String.mk ((r.dropWhile fun c => c ≠ '.').drop 1).reverse ++ ".wav"
  else p ++ ".wav"

/-- Sample environment: explicit relative path argument, empty disk. -/
def envNoFiles : Env :=
  ⟨["music/clip.mp3"], fun _ => false, false, fun _ => ([], ⟨"en", 0⟩)⟩

/-- Sample environment: no argument, only the default wav present,
capability installed, one-word transcript. -/
def envWavOnly : Env :=
  ⟨[], fun p => p = "/repo/project/audio.wav", true,
    fun _ => ([⟨some [⟨" Hello ", 0, 1⟩], 0, 1⟩], ⟨"en", 0⟩)⟩

/-- Sample environment: default mp3 present but faster_whisper missing. -/
def envNoWhisper : Env :=
  ⟨[], fun p => p = "/repo/project/audio.mp3", false, fun _ => ([], ⟨"en", 0⟩)⟩

lemma le_roundHalfEven (x : ℚ) : ⌊x⌋ ≤ roundHalfEven x := by
  unfold roundHalfEven
  split_ifs <;> omega

lemma roundHalfEven_le (x : ℚ) : roundHalfEven x ≤ ⌊x⌋ + 1 := by
  unfold roundHalfEven
  split_ifs <;> omega

lemma roundHalfEven_mono {x y : ℚ} (hxy : x ≤ y) :
    roundHalfEven x ≤ roundHalfEven y := by
  have hf : ⌊x⌋ ≤ ⌊y⌋ := Int.floor_le_floor hxy
  by_cases h : ⌊x⌋ = ⌊y⌋
  · have hfr : x - (⌊x⌋ : ℚ) ≤ y - (⌊y⌋ : ℚ) := by
      rw [h]; linarith
    unfold roundHalfEven
    simp only [h] at hfr ⊢
    split_ifs <;> first | omega | (exfalso; linarith)
  · have hlt : ⌊x⌋ < ⌊y⌋ := lt_of_le_of_ne hf h
    calc roundHalfEven x ≤ ⌊x⌋ + 1 := roundHalfEven_le x
      _ ≤ ⌊y⌋ := by omega
      _ ≤ roundHalfEven y := le_roundHalfEven y

lemma roundHalfEven_intCast (k : ℤ) : roundHalfEven (k : ℚ) = k := by
  unfold roundHalfEven
  rw [Int.floor_intCast]
  norm_num

lemma pyRound3_idem (q : ℚ) : pyRound3 (pyRound3 q) = pyRound3 q := by
  unfold pyRound3
  rw [div_mul_cancel₀ _ (by norm_num : (1000 : ℚ) ≠ 0), roundHalfEven_intCast]

lemma pyRound3_mono {q r : ℚ} (h : q ≤ r) : pyRound3 q ≤ pyRound3 r := by
  unfold pyRound3
  have h1 : roundHalfEven (q * 1000) ≤ roundHalfEven (r * 1000) :=
    roundHalfEven_mono (by linarith)
  have h2 : ((roundHalfEven (q * 1000) : ℚ)) ≤ (roundHalfEven (r * 1000) : ℚ) := by
    exact_mod_cast h1
  linarith

lemma head_dropWhile_not (p : Char → Bool) (l : List Char) {c : Char}
    (h : (l.dropWhile p).head? = some c) : p c = false := by
  induction l with
  | nil => simp [List.dropWhile] at h
  | cons a t ih =>
    by_cases hp : p a
    · rw [List.dropWhile_cons_of_pos hp] at h
      exact ih h
    · rw [List.dropWhile_cons_of_neg hp] at h
      simp only [List.head?_cons, Option.some.injEq] at h
      rw [← h]
      exact Bool.eq_false_iff.mpr hp

lemma rstripL_prefix (l : List Char) :
    l = rstripL l ++ (l.reverse.takeWhile isPySpace).reverse := by
  calc l = l.reverse.reverse := (List.reverse_reverse _).symm
    _ = (l.reverse.takeWhile isPySpace ++ l.reverse.dropWhile isPySpace).reverse := by
        rw [List.takeWhile_append_dropWhile]
    _ = rstripL l ++ (l.reverse.takeWhile isPySpace).reverse := by
        rw [List.reverse_append]; rfl

lemma pyStrip_head {s : String} {c : Char}
    (h : (pyStrip s).data.head? = some c) : isPySpace c = false := by
  unfold pyStrip at h
  have hd : (rstripL (lstripL s.data)).head? = some c := h
  have hpre := rstripL_prefix (lstripL s.data)
  rcases he : rstripL (lstripL s.data) with _ | ⟨c', t⟩
  · rw [he] at hd; simp at hd
  · rw [he] at hd
    have hc : c' = c := by simpa using hd
    rw [he] at hpre
    have hhead : (List.dropWhile isPySpace s.data).head? = some c' := by
      show (lstripL s.data).head? = some c'
      rw [hpre]
      rfl
    have hres := head_dropWhile_not isPySpace s.data hhead
    rwa [hc] at hres

lemma pyStrip_last {s : String} {c : Char}
    (h : (pyStrip s).data.getLast? = some c) : isPySpace c = false := by
  unfold pyStrip rstripL at h
  have hd : ((lstripL s.data).reverse.dropWhile isPySpace).head? = some c := by
    rw [← List.getLast?_reverse]
    exact h
  exact head_dropWhile_not isPySpace _ hd

lemma extract_eq (segs : List Segment) :
    extractTimeline segs = ((segs.map wordsOf).flatten).map normWordSpan := by
  induction segs with
  | nil => rfl
  | cons s rest ih =>
    rw [List.map_cons, List.flatten_cons, List.map_append, ← ih]
    show (if pyTruthy s.words then (wordsOf s).map normWordSpan else []) ++
        extractTimeline rest = _
    congr 1
    rcases hw : s.words with _ | l
    · simp [pyTruthy, wordsOf, hw]
    · cases l with
      | nil => simp [pyTruthy, wordsOf, hw]
      | cons a t => simp [pyTruthy, wordsOf, hw]

/-- Claim C5: every WordSpan entry of a produced Timeline stores
timestamps on which rounding to 3 decimal places is idempotent, and,
provided each capability word satisfies start ≤ end, the entry
satisfies start ≤ end. -/
theorem C5_rounding_idempotent_and_ordered (segs : List Segment)
    (h : ∀ s ∈ segs, ∀ w ∈ wordsOf s, w.start ≤ w.«end») :
    ∀ e ∈ extractTimeline segs,
      pyRound3 e.start = e.start ∧ pyRound3 e.«end» = e.«end» ∧
        e.start ≤ e.«end» := by
  intro e he
  rw [extract_eq] at he
  obtain ⟨w, hw, rfl⟩ := List.mem_map.mp he
  obtain ⟨lw, hlw, hwl⟩ := List.mem_flatten.mp hw
  obtain ⟨s, hs, rfl⟩ := List.mem_map.mp hlw
  exact ⟨pyRound3_idem _, pyRound3_idem _, pyRound3_mono (h s hs w hwl)⟩

/-- Witness for C5 on a concrete one-segment transcript. -/
theorem C5_witness :
    (∀ s ∈ [Segment.mk (some [Word.mk " hi " 0 1]) 0 1],
      ∀ w ∈ wordsOf s, w.start ≤ w.«end») ∧
    (∀ e ∈ extractTimeline [Segment.mk (some [Word.mk " hi " 0 1]) 0 1],
      pyRound3 e.start = e.start ∧ pyRound3 e.«end» = e.«end» ∧
        e.start ≤ e.«end») :=
  ⟨by decide, C5_rounding_idempotent_and_ordered _ (by decide)⟩

/-- Claim C6: every entry's stored text is the capability word's text
with leading and trailing whitespace stripped, entries never carry
leading or trailing whitespace, and a word whose text strips to the
empty string is still emitted as an entry. -/
theorem C6_text_stripped_and_empty_emitted (segs : List Segment)
    (s : Segment) (w : Word) (hs : s ∈ segs) (hw : w ∈ wordsOf s) :
    normWordSpan w ∈ extractTimeline segs ∧
    (normWordSpan w).word = pyStrip w.word ∧
    (∀ e ∈ extractTimeline segs,
      (∀ c, e.word.data.head? = some c → isPySpace c = false) ∧
      (∀ c, e.word.data.getLast? = some c → isPySpace c = false)) := by
  refine ⟨?_, rfl, ?_⟩
  · rw [extract_eq]
    exact List.mem_map_of_mem _
      (List.mem_flatten.mpr ⟨wordsOf s, List.mem_map_of_mem _ hs, hw⟩)
  · intro e he
    rw [extract_eq] at he
    obtain ⟨w', _, rfl⟩ := List.mem_map.mp he
    exact ⟨fun c hc => pyStrip_head hc, fun c hc => pyStrip_last hc⟩

/-- Witness for C6 on a transcript whose only word strips to empty. -/
theorem C6_witness :
    Segment.mk (some [Word.mk "  " 0 0]) 0 0 ∈
      [Segment.mk (some [Word.mk "  " 0 0]) 0 0] ∧
    Word.mk "  " 0 0 ∈ wordsOf (Segment.mk (some [Word.mk "  " 0 0]) 0 0) ∧
    (normWordSpan (Word.mk "  " 0 0) ∈
        extractTimeline [Segment.mk (some [Word.mk "  " 0 0]) 0 0] ∧
      (normWordSpan (Word.mk "  " 0 0)).word = pyStrip "  " ∧
      (∀ e ∈ extractTimeline [Segment.mk (some [Word.mk "  " 0 0]) 0 0],
        (∀ c, e.word.data.head? = some c → isPySpace c = false) ∧
        (∀ c, e.word.data.getLast? = some c → isPySpace c = false))) :=
  ⟨by decide, by decide,
    C6_text_stripped_and_empty_emitted [Segment.mk (some [Word.mk "  " 0 0]) 0 0]
      (Segment.mk (some [Word.mk "  " 0 0]) 0 0) (Word.mk "  " 0 0)
      (by decide) (by decide)⟩

/-- Claim C7: a segment whose words attribute is falsy (None or empty)
contributes exactly zero entries: the timeline over any segment list
containing it equals the timeline with that segment removed, whatever
its segment-level time range was. -/
theorem C7_wordless_segment_contributes_nothing (pre post : List Segment)
    (s : Segment) (h : pyTruthy s.words = false) :
    extractTimeline (pre ++ s :: post) = extractTimeline (pre ++ post) := by
  induction pre with
  | nil =>
    show (if pyTruthy s.words then (wordsOf s).map normWordSpan else []) ++
        extractTimeline post = extractTimeline post
    rw [h]
    rfl
  | cons a t ih =>
    show (if pyTruthy a.words then (wordsOf a).map normWordSpan else []) ++
        extractTimeline (t ++ s :: post) = _
    rw [ih]
    rfl

/-- Witness for C7: a wordless segment with a valid time range is
discarded. -/
theorem C7_witness :
    pyTruthy (Segment.mk (some []) 5 9).words = false ∧
    extractTimeline ([] ++ Segment.mk (some []) 5 9 ::
        [Segment.mk (some [Word.mk "a" 0 1]) 0 1]) =
      extractTimeline ([] ++ [Segment.mk (some [Word.mk "a" 0 1]) 0 1]) :=
  ⟨by decide, C7_wordless_segment_contributes_nothing _ _ _ (by decide)⟩

/-- Claim C8: the produced Timeline is exactly the concatenation of the
segments' word lists, in segment order and per-segment word order,
each word normalized — no re-sorting, de-duplication or merging; and
the extraction step is a pure function of the segment sequence, hence
deterministic across reruns. -/
theorem C8_order_preservation (segs : List Segment) :
    extractTimeline segs = ((segs.map wordsOf).flatten).map normWordSpan :=
  extract_eq segs

lemma main_missing_input (repoDir : String) (env : Env)
    (h1 : env.pathExists (cand1 repoDir env) = false)
    (h2 : env.pathExists (wavFallback repoDir) = false) :
    main repoDir env =
      ([Event.checkExists (cand1 repoDir env),
        Event.checkExists (wavFallback repoDir),
        Event.print ("Error: no audio file found at " ++ wavFallback repoDir),
        Event.print ("Upload audio via the web UI first.")],
        Outcome.exited 1) := by
  have hap : audioPath1 repoDir env = wavFallback repoDir := by
    unfold audioPath1
    rw [h1]
    simp
  simp only [main, hap, h2]
  simp

lemma main_no_whisper (repoDir : String) (env : Env)
    (h1 : env.pathExists (audioPath1 repoDir env) = true)
    (h2 : env.whisperInstalled = false) :
    main repoDir env =
      ([Event.checkExists (cand1 repoDir env),
        Event.checkExists (audioPath1 repoDir env),
        Event.print ("Transcribing: " ++ audioPath1 repoDir env),
        Event.print ("Loading Whisper model (this may take a moment on first run)..."),
        Event.importFasterWhisper,
        Event.print ("faster-whisper not installed. Install with:"),
        Event.print ("  pip install faster-whisper")],
        Outcome.exited 1) := by
  simp only [main, h1, h2]
  simp

/-- Claim C3: when neither the first candidate nor the wav fallback
exists, the run exits with code 1, the error line reports the path last
attempted (the wav fallback) and the operator is told to upload audio
upstream, and no transcription call happens. -/
theorem C3_missing_input_fails_without_transcription (repoDir : String)
    (env : Env) (h1 : env.pathExists (cand1 repoDir env) = false)
    (h2 : env.pathExists (wavFallback repoDir) = false) :
    main repoDir env =
      ([Event.checkExists (cand1 repoDir env),
        Event.checkExists (wavFallback repoDir),
        Event.print ("Error: no audio file found at " ++ wavFallback repoDir),
        Event.print ("Upload audio via the web UI first.")],
        Outcome.exited 1) ∧
    ∀ p, Event.transcribeCall p ∉ (main repoDir env).1 := by
  have hmain := main_missing_input repoDir env h1 h2
  refine ⟨hmain, ?_⟩
  rw [hmain]
  intro p
  simp

/-- Witness for C3: empty disk, explicit argument. -/
theorem C3_witness :
    (envNoFiles.pathExists (cand1 "/repo" envNoFiles) = false ∧
      envNoFiles.pathExists (wavFallback "/repo") = false) ∧
    (main "/repo" envNoFiles =
      ([Event.checkExists (cand1 "/repo" envNoFiles),
        Event.checkExists (wavFallback "/repo"),
        Event.print ("Error: no audio file found at " ++ wavFallback "/repo"),
        Event.print ("Upload audio via the web UI first.")],
        Outcome.exited 1) ∧
      ∀ p, Event.transcribeCall p ∉ (main "/repo" envNoFiles).1) :=
  ⟨⟨by decide, by decide⟩,
    C3_missing_input_fails_without_transcription "/repo" envNoFiles
      (by decide) (by decide)⟩

/-- Claim C4: when the faster_whisper import fails, the run exits with
code 1 right after the import attempt, with installation guidance
printed, no model loaded and no transcription call made. -/
theorem C4_capability_unavailable_fails_fast (repoDir : String)
    (env : Env) (h1 : env.pathExists (audioPath1 repoDir env) = true)
    (h2 : env.whisperInstalled = false) :
    main repoDir env =
      ([Event.checkExists (cand1 repoDir env),
        Event.checkExists (audioPath1 repoDir env),
        Event.print ("Transcribing: " ++ audioPath1 repoDir env),
        Event.print ("Loading Whisper model (this may take a moment on first run)..."),
        Event.importFasterWhisper,
        Event.print ("faster-whisper not installed. Install with:"),
        Event.print ("  pip install faster-whisper")],
        Outcome.exited 1) ∧
    Event.loadModel ∉ (main repoDir env).1 ∧
    ∀ p, Event.transcribeCall p ∉ (main repoDir env).1 := by
  have hmain := main_no_whisper repoDir env h1 h2
  refine ⟨hmain, ?_, ?_⟩
  · rw [hmain]
    simp
  · rw [hmain]
    intro p
    simp

/-- Witness for C4: default mp3 present, capability missing. -/
theorem C4_witness :
    (envNoWhisper.pathExists (audioPath1 "/repo" envNoWhisper) = true ∧
      envNoWhisper.whisperInstalled = false) ∧
    (main "/repo" envNoWhisper =
      ([Event.checkExists (cand1 "/repo" envNoWhisper),
        Event.checkExists (audioPath1 "/repo" envNoWhisper),
        Event.print ("Transcribing: " ++ audioPath1 "/repo" envNoWhisper),
        Event.print ("Loading Whisper model (this may take a moment on first run)..."),
        Event.importFasterWhisper,
        Event.print ("faster-whisper not installed. Install with:"),
        Event.print ("  pip install faster-whisper")],
        Outcome.exited 1) ∧
      Event.loadModel ∉ (main "/repo" envNoWhisper).1 ∧
      ∀ p, Event.transcribeCall p ∉ (main "/repo" envNoWhisper).1) :=
  ⟨⟨by decide, by decide⟩,
    C4_capability_unavailable_fails_fast "/repo" envNoWhisper
      (by decide) (by decide)⟩

/-- Claim C10: a run that exits with code 1 (missing input or missing
capability) never opens or writes the output path, so the previously
persisted timeline artifact is unchanged byte for byte. -/
theorem C10_failed_run_leaves_artifact_unchanged (repoDir : String)
    (env : Env) (h : (main repoDir env).2 = Outcome.exited 1) :
    (∀ p, Event.openWrite p ∉ (main repoDir env).1) ∧
    (∀ p c, Event.writeFile p c ∉ (main repoDir env).1) ∧
    ∀ fs : FS, applyEvents fs (main repoDir env).1 (timelinePath repoDir) =
      fs (timelinePath repoDir) := by
  by_cases hap : env.pathExists (audioPath1 repoDir env) = true
  · by_cases hw : env.whisperInstalled = true
    · exfalso
      simp only [main, hap, hw] at h
      simp at h
    · have hmain := main_no_whisper repoDir env hap (by simpa using hw)
      rw [hmain]
      refine ⟨?_, ?_, ?_⟩
      · intro p; simp
      · intro p c; simp
      · intro fs
        simp [applyEvents, applyEvent]
  · have h1 : env.pathExists (audioPath1 repoDir env) = false := by
      simpa using hap
    have hc1 : env.pathExists (cand1 repoDir env) = false := by
      by_contra hc
      have hc' : env.pathExists (cand1 repoDir env) = true := by
        simpa using hc
      have : audioPath1 repoDir env = cand1 repoDir env := by
        unfold audioPath1
        rw [hc']
        simp
      rw [this] at h1
      rw [h1] at hc'
      exact Bool.false_ne_true hc'
    have h2 : env.pathExists (wavFallback repoDir) = false := by
      have : audioPath1 repoDir env = wavFallback repoDir := by
        unfold audioPath1
        rw [hc1]
        simp
      rw [← this]
      exact h1
    have hmain := main_missing_input repoDir env hc1 h2
    rw [hmain]
    refine ⟨?_, ?_, ?_⟩
    · intro p; simp
    · intro p c; simp
    · intro fs
      simp [applyEvents, applyEvent]

/-- Witness for C10: empty disk, so the run fails; any prior artifact
content at the output path survives. -/
theorem C10_witness :
    (main "/repo" envNoFiles).2 = Outcome.exited 1 ∧
    ((∀ p, Event.openWrite p ∉ (main "/repo" envNoFiles).1) ∧
      (∀ p c, Event.writeFile p c ∉ (main "/repo" envNoFiles).1) ∧
      ∀ fs : FS, applyEvents fs (main "/repo" envNoFiles).1 (timelinePath "/repo") =
        fs (timelinePath "/repo")) :=
  ⟨by decide, C10_failed_run_leaves_artifact_unchanged "/repo" envNoFiles (by decide)⟩

/-- The first existence check is on the first candidate and the second
on audio_path after the fallback assignment, in every run. -/
lemma checkedPaths_main (repoDir : String) (env : Env) :
    checkedPaths (main repoDir env).1 =
      [cand1 repoDir env, audioPath1 repoDir env] := by
  by_cases hap : env.pathExists (audioPath1 repoDir env) = true
  · by_cases hw : env.whisperInstalled = true
    · simp only [main, hap, hw]
      simp [checkedPaths, List.filterMap_append, List.filterMap_map]
    · have hw' : env.whisperInstalled = false := by simpa using hw
      rw [main_no_whisper repoDir env hap hw']
      simp [checkedPaths]
  · have h1 : env.pathExists (audioPath1 repoDir env) = false := by
      simpa using hap
    simp only [main, h1]
    simp [checkedPaths]

/-- Claim C1 as amended: the script checks existence of exactly two
candidates — the explicit-or-default first candidate, then the value of
audio_path after the fallback assignment — and when the first candidate
is missing that fallback is always the fixed audio.wav of the project
directory, regardless of where the first candidate pointed. -/
theorem C1_amended_fixed_wav_fallback (repoDir : String) (env : Env) :
    checkedPaths (main repoDir env).1 =
      [cand1 repoDir env, audioPath1 repoDir env] ∧
    (env.pathExists (cand1 repoDir env) = false →
      audioPath1 repoDir env = wavFallback repoDir) := by
  refine ⟨checkedPaths_main repoDir env, fun h => ?_⟩
  unfold audioPath1
  rw [h]
  simp

/-- Witness for C1 (amended): with an explicit missing candidate the
fallback checked is the project audio.wav. -/
theorem C1_witness :
    envNoFiles.pathExists (cand1 "/repo" envNoFiles) = false ∧
    (checkedPaths (main "/repo" envNoFiles).1 =
      [cand1 "/repo" envNoFiles, audioPath1 "/repo" envNoFiles] ∧
      audioPath1 "/repo" envNoFiles = wavFallback "/repo") :=
  ⟨by decide,
    (C1_amended_fixed_wav_fallback "/repo" envNoFiles).1,
    (C1_amended_fixed_wav_fallback "/repo" envNoFiles).2 (by decide)⟩

/-- Counterexample to C1 as stated: with explicit candidate
music/clip.mp3 absent from disk, the script's second (fallback)
existence check is /repo/project/audio.wav, not the sibling
music/clip.wav the claim requires. -/
theorem C1_counterexample :
    checkedPaths (main "/repo" envNoFiles).1 =
      ["music/clip.mp3", "/repo/project/audio.wav"] ∧
    siblingWavSpec "music/clip.mp3" = "music/clip.wav" ∧
    ("/repo/project/audio.wav" : String) ≠ "music/clip.wav" := by
  refine ⟨by decide, by decide, by decide⟩

lemma dumpVal_entry (e : WordSpan) :
    List.replicate 2 ' ' ++ dumpVal (jsonOfEntry e) 2 = entryChars e := by
  show List.replicate 2 ' ' ++ dumpVal (Json.obj [("word", Json.str e.word),
    ("start", Json.num e.start), ("end", Json.num e.«end»)]) 2 = entryChars e
  unfold dumpVal
  rw [List.map_attach]
  simp only [List.pmap]
  unfold dumpVal
  have hw : escapeChars ['w', 'o', 'r', 'd'] = ['w', 'o', 'r', 'd'] := rfl
  have hs : escapeChars ['s', 't', 'a', 'r', 't'] = ['s', 't', 'a', 'r', 't'] := rfl
  have he : escapeChars ['e', 'n', 'd'] = ['e', 'n', 'd'] := rfl
  simp only [joinSep, entryChars, hw, hs, he]
  simp only [List.replicate, List.cons_append, List.nil_append, List.append_assoc]

lemma dumpVal_timeline (t : List WordSpan) :
    dumpVal (jsonOfTimeline t) 0 = dumpTimelineChars t := by
  cases t with
  | nil =>
    show dumpVal (Json.arr []) 0 = dumpTimelineChars []
    rw [dumpVal]
    rfl
  | cons e rest =>
    show dumpVal (Json.arr ((e :: rest).map jsonOfEntry)) 0 =
      dumpTimelineChars (e :: rest)
    rw [List.map_cons]
    unfold dumpVal
    rw [← List.map_cons, List.map_attach]
    simp only [List.pmap_eq_map]
    rw [List.map_map]
    have hfun : ∀ w : WordSpan,
        ((fun x => List.replicate (0 + 2) ' ' ++ dumpVal x (0 + 2)) ∘ jsonOfEntry) w =
          entryChars w := by
      intro w
      show List.replicate (0 + 2) ' ' ++ dumpVal (jsonOfEntry w) (0 + 2) = entryChars w
      have h2 : (0 + 2 : ℕ) = 2 := by norm_num
      rw [h2]
      exact dumpVal_entry w
    rw [funext hfun]
    show ('[' :: [Char.ofNat 10]) ++
        joinSep (',' :: [Char.ofNat 10]) ((e :: rest).map entryChars) ++
        ((Char.ofNat 10 :: List.replicate 0 ' ') ++ [']']) = dumpTimelineChars (e :: rest)
    simp [dumpTimelineChars]

lemma applyEvents_map_print (fs : FS) (f : Segment → String) (l : List Segment) :
    applyEvents fs (l.map fun s => Event.print (f s)) = fs := by
  induction l with
  | nil => rfl
  | cons a t ih =>
    show applyEvents (applyEvent fs (Event.print (f a)))
      (t.map fun s => Event.print (f s)) = fs
    exact ih

lemma applyEvents_append (fs : FS) (evs1 evs2 : List Event) :
    applyEvents fs (evs1 ++ evs2) = applyEvents (applyEvents fs evs1) evs2 := by
  unfold applyEvents
  exact List.foldl_append applyEvent fs evs1 evs2

lemma main_success (repoDir : String) (env : Env)
    (h1 : env.pathExists (audioPath1 repoDir env) = true)
    (h2 : env.whisperInstalled = true) :
    main repoDir env =
      ([Event.checkExists (cand1 repoDir env),
        Event.checkExists (audioPath1 repoDir env),
        Event.print ("Transcribing: " ++ audioPath1 repoDir env),
        Event.print ("Loading Whisper model (this may take a moment on first run)..."),
        Event.importFasterWhisper,
        Event.loadModel,
        Event.print ("Transcribing audio..."),
        Event.transcribeCall (audioPath1 repoDir env)] ++
        (((env.transcribeResult (audioPath1 repoDir env)).1.map fun s =>
            Event.print ("  Processed segment: " ++ String.mk (fmtFixed 1 s.start) ++
              "s - " ++ String.mk (fmtFixed 1 s.«end») ++ "s")) ++
          [Event.openWrite (timelinePath repoDir),
            Event.writeFile (timelinePath repoDir)
              (dumpTimelineChars (extractTimeline
                (env.transcribeResult (audioPath1 repoDir env)).1)),
            Event.print ("Wrote " ++ String.mk (natDigits (extractTimeline
              (env.transcribeResult (audioPath1 repoDir env)).1).length) ++
              " words to " ++ timelinePath repoDir),
            Event.print ("Detected language: " ++
              (env.transcribeResult (audioPath1 repoDir env)).2.language ++
              " (probability: " ++ String.mk (fmtFixed 2
                (env.transcribeResult (audioPath1 repoDir env)).2.language_probability) ++ ")"),
            Event.print ("Transcription complete!")]),
        Outcome.completed) := by
  simp only [main, h1, h2]
  simp

lemma applyEvents_main_success (repoDir : String) (env : Env)
    (h1 : env.pathExists (audioPath1 repoDir env) = true)
    (h2 : env.whisperInstalled = true) (fs : FS) :
    applyEvents fs (main repoDir env).1 (timelinePath repoDir) =
      some (dumpTimelineChars (extractTimeline
        (env.transcribeResult (audioPath1 repoDir env)).1)) := by
  rw [main_success repoDir env h1 h2]
  rw [applyEvents_append]
  show applyEvents (applyEvents fs _) _ (timelinePath repoDir) = _
  rw [applyEvents_append, applyEvents_map_print]
  show applyEvents (applyEvents fs _) _ (timelinePath repoDir) = _
  simp only [applyEvents, List.foldl_cons, List.foldl_nil]
  simp [applyEvent]

/-- Claim C2: a successful run writes, at the fixed path
project/timeline.json and regardless of what the file held before, the
indent-2 json serialization of the timeline: a top-level array with one
element per word, each an object with exactly the keys word, start and
end in that order. -/
theorem C2_artifact_shape_and_overwrite (repoDir : String) (env : Env)
    (h1 : env.pathExists (audioPath1 repoDir env) = true)
    (h2 : env.whisperInstalled = true) :
    (∀ fs : FS,
      applyEvents fs (main repoDir env).1 (timelinePath repoDir) =
        some (dumpVal (jsonOfTimeline (extractTimeline
          (env.transcribeResult (audioPath1 repoDir env)).1)) 0)) ∧
    jsonOfTimeline (extractTimeline (env.transcribeResult (audioPath1 repoDir env)).1) =
      Json.arr ((extractTimeline
        (env.transcribeResult (audioPath1 repoDir env)).1).map jsonOfEntry) ∧
    ((extractTimeline (env.transcribeResult (audioPath1 repoDir env)).1).map
        jsonOfEntry).length =
      (extractTimeline (env.transcribeResult (audioPath1 repoDir env)).1).length ∧
    ∀ e : WordSpan, jsonOfEntry e =
      Json.obj [("word", Json.str e.word), ("start", Json.num e.start),
        ("end", Json.num e.«end»)] := by
  refine ⟨?_, rfl, List.length_map _ _, fun e => rfl⟩
  intro fs
  rw [dumpVal_timeline]
  exact applyEvents_main_success repoDir env h1 h2 fs

/-- Witness for C2 on a concrete environment with the wav default
present and a one-word transcript. -/
theorem C2_witness :
    (envWavOnly.pathExists (audioPath1 "/repo" envWavOnly) = true ∧
      envWavOnly.whisperInstalled = true) ∧
    ((∀ fs : FS,
      applyEvents fs (main "/repo" envWavOnly).1 (timelinePath "/repo") =
        some (dumpVal (jsonOfTimeline (extractTimeline
          (envWavOnly.transcribeResult (audioPath1 "/repo" envWavOnly)).1)) 0)) ∧
    jsonOfTimeline (extractTimeline
        (envWavOnly.transcribeResult (audioPath1 "/repo" envWavOnly)).1) =
      Json.arr ((extractTimeline
        (envWavOnly.transcribeResult (audioPath1 "/repo" envWavOnly)).1).map jsonOfEntry) ∧
    ((extractTimeline (envWavOnly.transcribeResult
        (audioPath1 "/repo" envWavOnly)).1).map jsonOfEntry).length =
      (extractTimeline (envWavOnly.transcribeResult
        (audioPath1 "/repo" envWavOnly)).1).length ∧
    ∀ e : WordSpan, jsonOfEntry e =
      Json.obj [("word", Json.str e.word), ("start", Json.num e.start),
        ("end", Json.num e.«end»)]) :=
  ⟨⟨by decide, rfl⟩,
    C2_artifact_shape_and_overwrite "/repo" envWavOnly (by decide) rfl⟩

lemma char_toNat_valid (c : Char) :
    c.toNat < 55296 ∨ (57343 < c.toNat ∧ c.toNat < 1114112) := c.valid

lemma hexVal_hexDig (k : ℕ) (h : k < 16) : hexVal (hexDig k) = some k := by
  interval_cases k <;> rfl

lemma decodeOne_u (n : ℕ) (hn : n < 65536) (hno : ¬(55296 ≤ n ∧ n < 57344))
    (r : List Char) :
    decodeOne ('\\' :: 'u' :: (hex4 n ++ r)) = some (Tok.chr (Char.ofNat n), r) := by
  have e1 := hexVal_hexDig (n / 4096 % 16) (Nat.mod_lt _ (by norm_num))
  have e2 := hexVal_hexDig (n / 256 % 16) (Nat.mod_lt _ (by norm_num))
  have e3 := hexVal_hexDig (n / 16 % 16) (Nat.mod_lt _ (by norm_num))
  have e4 := hexVal_hexDig (n % 16) (Nat.mod_lt _ (by norm_num))
  have hval : n / 4096 % 16 * 4096 + n / 256 % 16 * 256 + n / 16 % 16 * 16 + n % 16 = n := by
    omega
  have h1 : ¬(55296 ≤ n ∧ n < 56320) := by omega
  have h2 : ¬(56320 ≤ n ∧ n < 57344) := by omega
  simp only [hex4, List.cons_append, List.nil_append, decodeOne, e1, e2, e3, e4]
  simp only [hval, h1, h2]
  simp

lemma decodeOne_u_pair (n m : ℕ) (hn : 55296 ≤ n ∧ n < 56320)
    (hm : 56320 ≤ m ∧ m < 57344) (r : List Char) :
    decodeOne ('\\' :: 'u' :: (hex4 n ++ ('\\' :: 'u' :: (hex4 m ++ r)))) =
      some (Tok.chr (Char.ofNat (65536 + (n - 55296) * 1024 + (m - 56320))), r) := by
  have e1 := hexVal_hexDig (n / 4096 % 16) (Nat.mod_lt _ (by norm_num))
  have e2 := hexVal_hexDig (n / 256 % 16) (Nat.mod_lt _ (by norm_num))
  have e3 := hexVal_hexDig (n / 16 % 16) (Nat.mod_lt _ (by norm_num))
  have e4 := hexVal_hexDig (n % 16) (Nat.mod_lt _ (by norm_num))
  have f1 := hexVal_hexDig (m / 4096 % 16) (Nat.mod_lt _ (by norm_num))
  have f2 := hexVal_hexDig (m / 256 % 16) (Nat.mod_lt _ (by norm_num))
  have f3 := hexVal_hexDig (m / 16 % 16) (Nat.mod_lt _ (by norm_num))
  have f4 := hexVal_hexDig (m % 16) (Nat.mod_lt _ (by norm_num))
  have hvaln : n / 4096 % 16 * 4096 + n / 256 % 16 * 256 + n / 16 % 16 * 16 + n % 16 = n := by
    omega
  have hvalm : m / 4096 % 16 * 4096 + m / 256 % 16 * 256 + m / 16 % 16 * 16 + m % 16 = m := by
    omega
  have h1 : 55296 ≤ n ∧ n < 56320 := hn
  have h2 : 56320 ≤ m ∧ m < 57344 := hm
  simp only [hex4, List.cons_append, List.nil_append, decodeOne, e1, e2, e3, e4,
    f1, f2, f3, f4]
  simp only [hvaln, hvalm, h1, h2]
  simp [h1, h2]

lemma decodeOne_escChar (c : Char) (r : List Char) :
    decodeOne (escChar c ++ r) = some (Tok.chr c, r) := by
  unfold escChar
  by_cases h1 : c = '"'
  · subst h1; simp [decodeOne]
  · by_cases h2 : c = '\\'
    · subst h2; simp [h1, decodeOne]
    · by_cases h3 : c = Char.ofNat 10
      · subst h3; simp [h1, h2, decodeOne]
      · by_cases h4 : c = Char.ofNat 13
        · subst h4; simp [h1, h2, h3, decodeOne]
        · by_cases h5 : c = Char.ofNat 9
          · subst h5; simp [h1, h2, h3, h4, decodeOne]
          · by_cases h6 : c = Char.ofNat 8
            · subst h6; simp [h1, h2, h3, h4, h5, decodeOne]
            · by_cases h7 : c = Char.ofNat 12
              · subst h7; simp [h1, h2, h3, h4, h5, h6, decodeOne]
              · by_cases h8 : c.toNat < 32
                · simp only [h1, h2, h3, h4, h5, h6, h7, h8, if_neg, if_pos,
                    ite_true, ite_false]
                  simp only [List.cons_append]
                  rw [decodeOne_u c.toNat (by omega) (by omega) r]
                  rw [Char.ofNat_toNat]
                · by_cases h9 : c.toNat < 127
                  · simp only [h1, h2, h3, h4, h5, h6, h7, h8, h9, if_neg, if_pos,
                      ite_true, ite_false]
                    simp only [List.cons_append, List.nil_append]
                    rw [decodeOne.eq_def]
                    simp [h1, h2, h8]
                  · by_cases h10 : c.toNat < 65536
                    · have hval := char_toNat_valid c
                      simp only [h1, h2, h3, h4, h5, h6, h7, h8, h9, h10, if_neg,
                        if_pos, ite_true, ite_false]
                      simp only [List.cons_append]
                      rw [decodeOne_u c.toNat (by omega) (by omega) r]
                      rw [Char.ofNat_toNat]
                    · have hval := char_toNat_valid c
                      simp only [h1, h2, h3, h4, h5, h6, h7, h8, h9, h10, if_neg,
                        if_pos, ite_true, ite_false]
                      simp only [List.append_assoc, List.cons_append, List.nil_append]
                      rw [decodeOne_u_pair (55296 + (c.toNat - 65536) / 1024)
                        (56320 + (c.toNat - 65536) % 1024) (by omega) (by omega) r]
                      have : 65536 + (55296 + (c.toNat - 65536) / 1024 - 55296) * 1024 +
                          (56320 + (c.toNat - 65536) % 1024 - 56320) = c.toNat := by
                        omega
                      rw [this, Char.ofNat_toNat]

lemma hex4_length (n : ℕ) : (hex4 n).length = 4 := rfl

set_option maxHeartbeats 1000000 in
lemma escChar_length_pos (c : Char) : 1 ≤ (escChar c).length := by
  unfold escChar
  split_ifs <;>
    simp only [List.length_cons, List.length_append, List.length_nil, hex4_length] <;>
    omega

lemma escapeChars_length (w : List Char) : w.length ≤ (escapeChars w).length := by
  induction w with
  | nil => simp [escapeChars]
  | cons c t ih =>
    show (c :: t).length ≤ ((c :: t).map escChar).flatten.length
    rw [List.map_cons, List.flatten_cons, List.length_append, List.length_cons]
    have := escChar_length_pos c
    unfold escapeChars at ih
    omega

lemma unescapeF_escape (w : List Char) : ∀ fuel, ∀ r : List Char,
    w.length + 1 ≤ fuel →
    unescapeF fuel (escapeChars w ++ ('"' :: r)) = some (w, r) := by
  induction w with
  | nil =>
    intro fuel r hf
    match fuel, hf with
    | fuel + 1, _ =>
      show unescapeF (fuel + 1) ('"' :: r) = some ([], r)
      simp [unescapeF, decodeOne]
  | cons c t ih =>
    intro fuel r hf
    match fuel, hf with
    | fuel + 1, hf =>
      have hlist : escapeChars (c :: t) ++ ('"' :: r) =
          escChar c ++ (escapeChars t ++ ('"' :: r)) := by
        show ((c :: t).map escChar).flatten ++ _ = _
        rw [List.map_cons, List.flatten_cons, List.append_assoc]
        rfl
      rw [hlist]
      show unescapeF (fuel + 1) _ = _
      rw [unescapeF, decodeOne_escChar]
      show Option.map (fun p => (c :: p.1, p.2))
        (unescapeF fuel (escapeChars t ++ ('"' :: r))) = some (c :: t, r)
      simp only [List.length_cons] at hf
      rw [ih fuel r (by omega)]
      rfl

lemma unescape_escape (w : List Char) (r : List Char) :
    unescape (escapeChars w ++ ('"' :: r)) = some (w, r) := by
  unfold unescape
  apply unescapeF_escape
  have h1 := escapeChars_length w
  rw [List.length_append, List.length_cons]
  omega

lemma digitChar_toNat (d : ℕ) (h : d < 10) : (digitChar d).toNat = 48 + d := by
  interval_cases d <;> rfl

lemma digitChar_isDigit (d : ℕ) (h : d < 10) : isDigitChar (digitChar d) = true := by
  interval_cases d <;> rfl

lemma natDigitsF_congr : ∀ n : ℕ, ∀ fuel1 fuel2 : ℕ, n < fuel1 → n < fuel2 →
    natDigitsF fuel1 n = natDigitsF fuel2 n := by
  intro n
  induction n using Nat.strong_induction_on with
  | _ n ih =>
    intro fuel1 fuel2 h1 h2
    match fuel1, h1, fuel2, h2 with
    | f1 + 1, h1, f2 + 1, h2 =>
      show natDigitsF (f1 + 1) n = natDigitsF (f2 + 1) n
      by_cases hn : n < 10
      · simp [natDigitsF, hn]
      · have hd : n / 10 < n := Nat.div_lt_self (by omega) (by omega)
        simp only [natDigitsF, hn, if_neg, ite_false]
        rw [ih (n / 10) hd f1 f2 (by omega) (by omega)]

lemma natDigits_eq (n : ℕ) : natDigits n =
    if n < 10 then [digitChar n]
    else natDigits (n / 10) ++ [digitChar (n % 10)] := by
  show natDigitsF (n + 1) n = _
  by_cases hn : n < 10
  · simp [natDigitsF, hn]
  · have hd : n / 10 < n := Nat.div_lt_self (by omega) (by omega)
    simp only [natDigitsF, hn, if_neg, ite_false]
    rw [natDigitsF_congr (n / 10) n (n / 10 + 1) (by omega) (by omega)]
    rfl

lemma natDigits_digits (n : ℕ) : ∀ c ∈ natDigits n, isDigitChar c = true := by
  induction n using Nat.strong_induction_on with
  | _ n ih =>
    intro c hc
    rw [natDigits_eq] at hc
    by_cases hn : n < 10
    · rw [if_pos hn] at hc
      simp only [List.mem_singleton] at hc
      subst hc
      exact digitChar_isDigit n hn
    · rw [if_neg hn] at hc
      rcases List.mem_append.mp hc with h | h
      · exact ih (n / 10) (Nat.div_lt_self (by omega) (by omega)) c h
      · simp only [List.mem_singleton] at h
        subst h
        exact digitChar_isDigit (n % 10) (Nat.mod_lt _ (by omega))

lemma natDigits_ne_nil (n : ℕ) : natDigits n ≠ [] := by
  rw [natDigits_eq]
  by_cases hn : n < 10
  · simp [hn]
  · simp [hn]

lemma digitsVal_append (xs ys : List Char) :
    digitsVal (xs ++ ys) = digitsVal xs * 10 ^ ys.length + digitsVal ys := by
  induction xs with
  | nil => simp [digitsVal]
  | cons c t ih =>
    show digitsVal (c :: (t ++ ys)) = _
    simp only [digitsVal, List.length_append, List.length_cons]
    rw [ih, pow_add]
    ring

lemma digitsVal_natDigits (n : ℕ) : digitsVal (natDigits n) = n := by
  induction n using Nat.strong_induction_on with
  | _ n ih =>
    rw [natDigits_eq]
    by_cases hn : n < 10
    · rw [if_pos hn]
      simp [digitsVal, digitChar_toNat n hn]
    · rw [if_neg hn]
      rw [digitsVal_append, ih (n / 10) (Nat.div_lt_self (by omega) (by omega))]
      simp only [digitsVal, List.length_cons, List.length_nil]
      rw [digitChar_toNat (n % 10) (Nat.mod_lt _ (by omega))]
      simp
      omega

lemma readDigits_spec : ∀ ds : List Char, ∀ r : List Char,
    (∀ c ∈ ds, isDigitChar c = true) →
    (∀ c, r.head? = some c → isDigitChar c = false) →
    readDigits (ds ++ r) = (digitsVal ds, ds.length, r) := by
  intro ds
  induction ds with
  | nil =>
    intro r _ hr
    cases r with
    | nil => rfl
    | cons c t =>
      show readDigits (c :: t) = (0, 0, c :: t)
      have hc := hr c rfl
      simp [readDigits, hc]
  | cons c t ih =>
    intro r hds hr
    have hc : isDigitChar c = true := hds c (List.mem_cons_self c t)
    show readDigits (c :: (t ++ r)) = _
    simp only [readDigits, hc, if_pos, ite_true]
    rw [ih r (fun x hx => hds x (List.mem_cons_of_mem c hx)) hr]
    simp only [digitsVal, List.length_cons]

lemma pad3_val (m : ℕ) (hm : m < 1000) : digitsVal (pad3 m) = m := by
  unfold pad3
  simp only [digitsVal, List.length_cons, List.length_nil]
  rw [digitChar_toNat (m / 100) (by omega), digitChar_toNat (m / 10 % 10) (by omega),
    digitChar_toNat (m % 10) (by omega)]
  simp
  omega

lemma pad3_digits (m : ℕ) (hm : m < 1000) :
    ∀ c ∈ pad3 m, isDigitChar c = true := by
  intro c hc
  simp only [pad3, List.mem_cons, List.not_mem_nil, or_false] at hc
  rcases hc with rfl | rfl | rfl
  · exact digitChar_isDigit _ (by omega)
  · exact digitChar_isDigit _ (by omega)
  · exact digitChar_isDigit _ (by omega)

lemma stripTrailZeros_decomp (l : List Char) :
    l = stripTrailZeros l ++
      List.replicate (l.length - (stripTrailZeros l).length) '0' := by
  unfold stripTrailZeros
  have h1 : l.reverse = l.reverse.takeWhile (fun c => c = '0') ++
      l.reverse.dropWhile (fun c => c = '0') :=
    (List.takeWhile_append_dropWhile _ _).symm
  have h2 : l = (l.reverse.dropWhile (fun c => c = '0')).reverse ++
      (l.reverse.takeWhile (fun c => c = '0')).reverse := by
    conv_lhs => rw [← List.reverse_reverse l, h1]
    rw [List.reverse_append]
  have h3 : ∀ c ∈ (l.reverse.takeWhile (fun c => c = '0')).reverse, c = '0' := by
    intro c hc
    rw [List.mem_reverse] at hc
    have := List.mem_takeWhile_imp hc
    simpa using this
  have h4 : (l.reverse.takeWhile (fun c => c = '0')).reverse =
      List.replicate (l.reverse.takeWhile (fun c => c = '0')).reverse.length '0' :=
    List.eq_replicate_of_mem h3
  have h5 : l.length = (l.reverse.dropWhile (fun c => c = '0')).reverse.length +
      (l.reverse.takeWhile (fun c => c = '0')).reverse.length := by
    conv_lhs => rw [h2]
    rw [List.length_append]
  have h6 : l.length - (l.reverse.dropWhile (fun c => c = '0')).reverse.length =
      (l.reverse.takeWhile (fun c => c = '0')).reverse.length := by omega
  rw [h6, ← h4]
  exact h2

lemma digitsVal_replicate_zero (k : ℕ) :
    digitsVal (List.replicate k '0') = 0 := by
  induction k with
  | zero => rfl
  | succ j ih =>
    show digitsVal ('0' :: List.replicate j '0') = 0
    have h48 : '0'.toNat = 48 := rfl
    simp [digitsVal, ih, h48]

lemma frac3_spec (m : ℕ) (hm : m < 1000) :
    (∀ c ∈ frac3 m, isDigitChar c = true) ∧ frac3 m ≠ [] ∧
      (frac3 m).length ≤ 3 ∧
      digitsVal (frac3 m) * 10 ^ (3 - (frac3 m).length) = m := by
  by_cases h0 : m = 0
  · subst h0
    refine ⟨?_, ?_, ?_, ?_⟩ <;> simp [frac3, digitsVal, isDigitChar]
  · have hfr : frac3 m = stripTrailZeros (pad3 m) := by simp [frac3, h0]
    have hdec := stripTrailZeros_decomp (pad3 m)
    have hlen3 : (pad3 m).length = 3 := rfl
    have hsub : ∀ c ∈ stripTrailZeros (pad3 m), c ∈ pad3 m := by
      intro c hc
      unfold stripTrailZeros at hc
      rw [List.mem_reverse] at hc
      have := (List.dropWhile_sublist (l := (pad3 m).reverse)
        (p := fun c => c = '0')).mem hc
      rwa [List.mem_reverse] at this
    have hlenle : (stripTrailZeros (pad3 m)).length ≤ 3 := by
      have hl : (pad3 m).length = (stripTrailZeros (pad3 m)).length +
          (List.replicate ((pad3 m).length - (stripTrailZeros (pad3 m)).length) '0').length := by
        conv_lhs => rw [hdec]
        rw [List.length_append]
      rw [hlen3] at hl
      omega
    refine ⟨?_, ?_, ?_, ?_⟩
    · rw [hfr]
      intro c hc
      exact pad3_digits m hm c (hsub c hc)
    · rw [hfr]
      intro hnil
      have : pad3 m = List.replicate ((pad3 m).length - 0) '0' := by
        conv_lhs => rw [hdec]
        rw [hnil]
        simp
      have hv := pad3_val m hm
      rw [this] at hv
      rw [digitsVal_replicate_zero] at hv
      omega
    · rw [hfr]; exact hlenle
    · rw [hfr]
      have hv := pad3_val m hm
      conv_rhs at hv => rw []
      conv_lhs at hv => rw [hdec]
      rw [digitsVal_append, digitsVal_replicate_zero, List.length_replicate] at hv
      rw [hlen3] at hv
      omega

lemma readNum_renderMillis (k : ℕ) (r : List Char)
    (hr : ∀ c, r.head? = some c → isDigitChar c = false) :
    readNum (renderMillis k ++ r) = some ((k : ℚ) / 1000, r) := by
  obtain ⟨f1, f2, f3, f4⟩ := frac3_spec (k % 1000) (Nat.mod_lt _ (by norm_num))
  obtain ⟨c0, cs, hnd⟩ := List.exists_cons_of_ne_nil (natDigits_ne_nil (k / 1000))
  obtain ⟨d0, ds, hfd⟩ := List.exists_cons_of_ne_nil f2
  have hin : renderMillis k ++ r =
      natDigits (k / 1000) ++ ('.' :: (frac3 (k % 1000) ++ r)) := by
    unfold renderMillis
    simp [List.append_assoc]
  rw [hin]
  have hrd1 : readDigits (natDigits (k / 1000) ++ ('.' :: (frac3 (k % 1000) ++ r))) =
      (digitsVal (natDigits (k / 1000)), (natDigits (k / 1000)).length,
        '.' :: (frac3 (k % 1000) ++ r)) := by
    apply readDigits_spec _ _ (natDigits_digits _)
    intro c hc
    simp only [List.head?_cons, Option.some.injEq] at hc
    subst hc
    rfl
  have hrd2 : readDigits (frac3 (k % 1000) ++ r) =
      (digitsVal (frac3 (k % 1000)), (frac3 (k % 1000)).length, r) :=
    readDigits_spec _ _ f1 hr
  rw [hnd]
  show readNum (c0 :: (cs ++ ('.' :: (frac3 (k % 1000) ++ r)))) = _
  have hc0 : isDigitChar c0 = true := by
    apply natDigits_digits (k / 1000)
    rw [hnd]
    exact List.mem_cons_self c0 cs
  rw [readNum.eq_def]
  simp only [hc0, if_pos, ite_true]
  rw [← List.cons_append, ← hnd, hrd1]
  simp only []
  rw [hfd]
  show (if isDigitChar d0 then _ else _) = _
  have hd0 : isDigitChar d0 = true := by
    apply f1
    rw [hfd]
    exact List.mem_cons_self d0 ds
  simp only [hd0, if_pos, ite_true]
  rw [← hfd, hrd2]
  simp only []
  congr 1
  congr 1
  have hL3 : (frac3 (k % 1000)).length + (3 - (frac3 (k % 1000)).length) = 3 := by
    omega
  have hpow : ((10 : ℚ) ^ (frac3 (k % 1000)).length) *
      10 ^ (3 - (frac3 (k % 1000)).length) = 1000 := by
    rw [← pow_add, hL3]
    norm_num
  have f4q : ((digitsVal (frac3 (k % 1000)) : ℚ)) * 10 ^ (3 - (frac3 (k % 1000)).length) =
      ((k % 1000 : ℕ) : ℚ) := by
    exact_mod_cast congrArg (fun x : ℕ => (x : ℚ)) f4
  have hfv : ((digitsVal (frac3 (k % 1000)) : ℚ)) / 10 ^ (frac3 (k % 1000)).length =
      ((k % 1000 : ℕ) : ℚ) / 1000 := by
    rw [div_eq_div_iff (by positivity) (by norm_num : (1000 : ℚ) ≠ 0)]
    calc (digitsVal (frac3 (k % 1000)) : ℚ) * 1000
        = (digitsVal (frac3 (k % 1000)) : ℚ) *
          (10 ^ (3 - (frac3 (k % 1000)).length) * 10 ^ (frac3 (k % 1000)).length) := by
          rw [← pow_add]
          have h3 : 3 - (frac3 (k % 1000)).length + (frac3 (k % 1000)).length = 3 := by
            omega
          rw [h3]
          norm_num
      _ = ((digitsVal (frac3 (k % 1000)) : ℚ) * 10 ^ (3 - (frac3 (k % 1000)).length)) *
          10 ^ (frac3 (k % 1000)).length := by ring
      _ = ((k % 1000 : ℕ) : ℚ) * 10 ^ (frac3 (k % 1000)).length := by rw [f4q]
  rw [digitsVal_natDigits, hfv]
  have hk : k / 1000 * 1000 + k % 1000 = k := by omega
  have hkq : ((k / 1000 : ℕ) : ℚ) * 1000 + ((k % 1000 : ℕ) : ℚ) = (k : ℚ) := by
    exact_mod_cast congrArg (fun x : ℕ => (x : ℚ)) hk
  rw [eq_div_iff (by norm_num : (1000 : ℚ) ≠ 0)]
  rw [add_mul, div_mul_cancel₀ _ (by norm_num : (1000 : ℚ) ≠ 0)]
  linarith

lemma renderNum_nat (k : ℕ) : renderNum ((k : ℚ) / 1000) = renderMillis k := by
  unfold renderNum
  have h1 : ((k : ℚ) / 1000) * 1000 = (k : ℚ) := by
    rw [div_mul_cancel₀ _ (by norm_num : (1000 : ℚ) ≠ 0)]
  rw [h1]
  have h2 : ((k : ℚ)).num = (k : ℤ) := Rat.num_natCast k
  rw [h2]
  simp

lemma expectPre_append (p : List Char) : ∀ l : List Char,
    expectPre p (p ++ l) = some l := by
  induction p with
  | nil => intro l; rfl
  | cons c t ih =>
    intro l
    show expectPre (c :: t) (c :: (t ++ l)) = some l
    simp only [expectPre, if_pos, ite_true]
    exact ih l

lemma readNum_entry_start (e : WordSpan) (k : ℕ) (hk : e.start = (k : ℚ) / 1000)
    (X : List Char) :
    readNum (renderNum e.start ++ ((",\n    \"end\": ").data ++ X)) =
      some (e.start, (",\n    \"end\": ").data ++ X) := by
  rw [hk, renderNum_nat]
  apply readNum_renderMillis
  intro c hc
  simp only [List.cons_append, List.head?_cons, Option.some.injEq] at hc
  rw [← hc]
  rfl

lemma readNum_entry_end (e : WordSpan) (k : ℕ) (hk : e.«end» = (k : ℚ) / 1000)
    (X : List Char) :
    readNum (renderNum e.«end» ++ (("\n  \x7d").data ++ X)) =
      some (e.«end», ("\n  \x7d").data ++ X) := by
  rw [hk, renderNum_nat]
  apply readNum_renderMillis
  intro c hc
  simp only [List.cons_append, List.head?_cons, Option.some.injEq] at hc
  rw [← hc]
  rfl

lemma parseEntry_spec (e : WordSpan) (r : List Char)
    (h1 : ∃ k : ℕ, e.start = (k : ℚ) / 1000)
    (h2 : ∃ k : ℕ, e.«end» = (k : ℚ) / 1000) :
    parseEntry (entryChars e ++ r) = some (e, r) := by
  obtain ⟨k1, hk1⟩ := h1
  obtain ⟨k2, hk2⟩ := h2
  unfold parseEntry entryChars
  simp only [List.append_assoc]
  rw [expectPre_append]
  simp only [Option.some_bind]
  have hQ : ∀ X : List Char, ("\",\n    \"start\": ").data ++ X =
      '"' :: ((",\n    \"start\": ").data ++ X) := fun _ => rfl
  rw [hQ]
  rw [unescape_escape]
  simp only [Option.some_bind]
  rw [expectPre_append]
  simp only [Option.some_bind]
  rw [readNum_entry_start e k1 hk1 (renderNum e.«end» ++ (("\n  \x7d").data ++ r))]
  simp only [Option.some_bind]
  rw [expectPre_append]
  simp only [Option.some_bind]
  rw [readNum_entry_end e k2 hk2 r]
  simp only [Option.some_bind]
  rw [expectPre_append]
  simp only [Option.map_some']

lemma entryChars_length_pos (e : WordSpan) : 1 ≤ (entryChars e).length := by
  unfold entryChars
  simp only [List.length_append]
  have h17 : ("  \x7b\n    \"word\": \"").data.length = 17 := rfl
  rw [h17]
  omega

lemma joinSep_length_ge (sep : List Char) (ts : List WordSpan) :
    ts.length ≤ (joinSep sep (ts.map entryChars)).length := by
  induction ts with
  | nil => simp
  | cons e rest ih =>
    cases rest with
    | nil =>
      show (1 : ℕ) ≤ (entryChars e).length
      exact entryChars_length_pos e
    | cons f t =>
      show (f :: t).length + 1 ≤
        (entryChars e ++ sep ++ joinSep sep ((f :: t).map entryChars)).length
      simp only [List.length_append]
      have h1 := entryChars_length_pos e
      have h2 := ih
      simp only [List.length_cons] at h2 ⊢
      omega

lemma loopEntries_spec : ∀ ts : List WordSpan, ts ≠ [] →
    (∀ e ∈ ts, WFentry e) → ∀ fuel : ℕ, ts.length ≤ fuel →
    loopEntries fuel (joinSep (',' :: [Char.ofNat 10]) (ts.map entryChars) ++
      (Char.ofNat 10 :: [']'])) = some ts := by
  intro ts
  induction ts with
  | nil => intro h; exact absurd rfl h
  | cons e rest ih =>
    intro _ hwf fuel hfuel
    match fuel, hfuel with
    | fuel + 1, hfuel =>
      have hwfe : WFentry e := hwf e (List.mem_cons_self e rest)
      cases rest with
      | nil =>
        show loopEntries (fuel + 1) (entryChars e ++ (Char.ofNat 10 :: [']'])) =
          some [e]
        rw [loopEntries]
        rw [parseEntry_spec e _ hwfe.1 hwfe.2]
        simp
      | cons f t =>
        have hjoin : joinSep (',' :: [Char.ofNat 10]) (((e :: f :: t)).map entryChars) =
            entryChars e ++ ((',' :: [Char.ofNat 10]) ++
              joinSep (',' :: [Char.ofNat 10]) ((f :: t).map entryChars)) := by
          show entryChars e ++ (',' :: [Char.ofNat 10]) ++
            joinSep (',' :: [Char.ofNat 10]) ((f :: t).map entryChars) = _
          rw [List.append_assoc]
        rw [hjoin]
        rw [List.append_assoc]
        rw [loopEntries]
        rw [parseEntry_spec e _ hwfe.1 hwfe.2]
        simp only [Option.some_bind, List.cons_append, List.nil_append]
        simp only [ite_true]
        rw [ih (by simp) (fun x hx => hwf x (List.mem_cons_of_mem e hx)) fuel
          (by simp only [List.length_cons] at hfuel ⊢; omega)]
        rfl

lemma parseTimeline_dump (t : List WordSpan) (hwf : ∀ e ∈ t, WFentry e) :
    parseTimeline (dumpTimelineChars t) = some t := by
  cases t with
  | nil => rfl
  | cons e rest =>
    show parseTimeline (('[' :: [Char.ofNat 10]) ++
      joinSep (',' :: [Char.ofNat 10]) ((e :: rest).map entryChars) ++
      ((Char.ofNat 10) :: [']'])) = some (e :: rest)
    have hshape : ('[' :: [Char.ofNat 10]) ++
        joinSep (',' :: [Char.ofNat 10]) ((e :: rest).map entryChars) ++
        ((Char.ofNat 10) :: [']']) =
        '[' :: (Char.ofNat 10 ::
          (joinSep (',' :: [Char.ofNat 10]) ((e :: rest).map entryChars) ++
            (Char.ofNat 10 :: [']']))) := by
      simp
    rw [hshape]
    obtain ⟨j0, js, hj⟩ := List.exists_cons_of_ne_nil
      (show joinSep (',' :: [Char.ofNat 10]) ((e :: rest).map entryChars) ++
        (Char.ofNat 10 :: [']']) ≠ [] by simp)
    rw [hj, parseTimeline.eq_def]
    simp only [ite_true]
    rw [← hj]
    have hfuel : (e :: rest).length ≤
        (joinSep (',' :: [Char.ofNat 10]) ((e :: rest).map entryChars) ++
          (Char.ofNat 10 :: [']'])).length := by
      have hjlen := joinSep_length_ge (',' :: [Char.ofNat 10]) (e :: rest)
      simp only [List.length_append, List.length_cons] at hjlen ⊢
      omega
    exact loopEntries_spec (e :: rest) (by simp) hwf _ hfuel

/-- Claim C9: the written artifact is a json array with one element per
timeline word, parsing it back (json.loads on the written grammar)
recovers the timeline exactly, and re-serializing the parsed value with
the same formatting rules reproduces the written bytes identically. -/
theorem C9_write_parse_roundtrip (t : List WordSpan)
    (hwf : ∀ e ∈ t, WFentry e) :
    jsonOfTimeline t = Json.arr (t.map jsonOfEntry) ∧
    (t.map jsonOfEntry).length = t.length ∧
    parseTimeline (dumpVal (jsonOfTimeline t) 0) = some t ∧
    ∃ t2, parseTimeline (dumpVal (jsonOfTimeline t) 0) = some t2 ∧
      dumpVal (jsonOfTimeline t2) 0 = dumpVal (jsonOfTimeline t) 0 := by
  have hparse : parseTimeline (dumpVal (jsonOfTimeline t) 0) = some t := by
    rw [dumpVal_timeline]
    exact parseTimeline_dump t hwf
  exact ⟨rfl, List.length_map _ _, hparse, t, hparse, rfl⟩

/-- Witness for C9 on a concrete two-word timeline. -/
theorem C9_witness :
    (∀ e ∈ [WordSpan.mk "Hello" 0 1, WordSpan.mk "wörld" 1 2], WFentry e) ∧
    (jsonOfTimeline [WordSpan.mk "Hello" 0 1, WordSpan.mk "wörld" 1 2] =
      Json.arr ([WordSpan.mk "Hello" 0 1, WordSpan.mk "wörld" 1 2].map jsonOfEntry) ∧
    ([WordSpan.mk "Hello" 0 1, WordSpan.mk "wörld" 1 2].map jsonOfEntry).length =
      [WordSpan.mk "Hello" 0 1, WordSpan.mk "wörld" 1 2].length ∧
    parseTimeline (dumpVal (jsonOfTimeline
      [WordSpan.mk "Hello" 0 1, WordSpan.mk "wörld" 1 2]) 0) =
      some [WordSpan.mk "Hello" 0 1, WordSpan.mk "wörld" 1 2] ∧
    ∃ t2, parseTimeline (dumpVal (jsonOfTimeline
        [WordSpan.mk "Hello" 0 1, WordSpan.mk "wörld" 1 2]) 0) = some t2 ∧
      dumpVal (jsonOfTimeline t2) 0 =
        dumpVal (jsonOfTimeline [WordSpan.mk "Hello" 0 1, WordSpan.mk "wörld" 1 2]) 0) := by
  refine ⟨?_, C9_write_parse_roundtrip _ ?_⟩ <;>
  · intro e he
    simp only [List.mem_cons, List.not_mem_nil, or_false] at he
    rcases he with rfl | rfl
    · exact ⟨⟨0, by simp⟩, ⟨1000, by norm_num⟩⟩
    · exact ⟨⟨1000, by norm_num⟩, ⟨2000, by norm_num⟩⟩

end Musicvid
